import Mathlib

/-!
Verification of the D3Timeline component (src/src/D3Timeline.ts and the
JSON serializer of src/unnamed/part_001) against its specification.

The development is a shallow embedding:

* JS `Date` values are modelled as `Int` milliseconds since the Unix epoch
  (only valid dates, whose absolute time value is at most 8.64e15, occur in
  the instance state; an invalid date is represented explicitly where the
  serializer can produce one).
* JS numbers used as pixel coordinates and scale factors are modelled as `ℚ`
  (exact arithmetic in place of IEEE doubles; no claim below depends on
  rounding).
* JSON text is modelled by its parse tree `JValue`; the platform pair
  `JSON.stringify` / `JSON.parse` is the identity between the two views, so
  the serializer's replacer and reviver act directly on trees.
* The platform functions `Date.prototype.toISOString` and the `Date`
  constructor on ISO strings are modelled by `isoString` / `isoParse` below,
  implemented with the standard proleptic-Gregorian civil-date algorithm.

Sections: the platform date/ISO layer first, then the serializer, then the
D3Timeline data model and operations, then one theorem per specification
claim.
-/

section PlatformDigits

/-- The character of a single decimal digit. -/
def digitChar (d : Nat) : Char := Char.ofNat (48 + d)

/-- Decimal value of a digit character, `none` for any other character. -/
def charDigit (c : Char) : Option Nat :=
  if 48 ≤ c.toNat ∧ c.toNat ≤ 57 then some (c.toNat - 48) else none

/-- Big-endian zero-padded decimal digits of `n % 10 ^ w`, `w` characters. -/
def fixedDigits : Nat → Nat → List Char
  | 0, _ => []
  | w + 1, n => digitChar (n / 10 ^ w % 10) :: fixedDigits w n

/-- Read exactly `w` decimal digits, most significant first, onto `acc`. -/
def readFixedAcc : Nat → Nat → List Char → Option (Nat × List Char)
  | 0, acc, cs => some (acc, cs)
  | _ + 1, _, [] => none
  | w + 1, acc, c :: cs =>
    match charDigit c with
    | some d => readFixedAcc w (acc * 10 + d) cs
    | none => none

/-- Read exactly `w` decimal digits as a number. -/
def readFixed (w : Nat) (cs : List Char) : Option (Nat × List Char) :=
  readFixedAcc w 0 cs

theorem charDigit_digitChar (d : Nat) (h : d < 10) : charDigit (digitChar d) = some d := by
  interval_cases d <;> decide

theorem digitChar_ne_plus (d : Nat) (h : d < 10) : digitChar d ≠ '+' := by
  interval_cases d <;> decide

theorem digitChar_ne_minus (d : Nat) (h : d < 10) : digitChar d ≠ '-' := by
  interval_cases d <;> decide

theorem readFixedAcc_fixedDigits (w : Nat) (n acc : Nat) (rest : List Char) :
    readFixedAcc w acc (fixedDigits w n ++ rest) = some (acc * 10 ^ w + n % 10 ^ w, rest) := by
  induction w generalizing n acc with
  | zero =>
    simp [fixedDigits, readFixedAcc, Nat.mod_one]
  | succ w ih =>
    rw [fixedDigits]
    simp only [List.cons_append, readFixedAcc]
    rw [charDigit_digitChar _ (Nat.mod_lt _ (by norm_num))]
    simp only [List.append_eq]
    rw [ih]
    congr 1
    have h1 : n % 10 ^ (w + 1) = 10 ^ w * (n / 10 ^ w % 10) + n % 10 ^ w := by
      rw [pow_succ]
      rw [Nat.mod_mul]
      ring_nf
    rw [h1]
    ring_nf

theorem readFixed_fixedDigits (w n : Nat) (rest : List Char) (h : n < 10 ^ w) :
    readFixed w (fixedDigits w n ++ rest) = some (n, rest) := by
  rw [readFixed, readFixedAcc_fixedDigits]
  rw [Nat.mod_eq_of_lt h]
  simp

end PlatformDigits

section PlatformCalendar

/-!
Proleptic-Gregorian conversion between days since the Unix epoch and civil
dates, as used by the JS engine behind `Date.prototype.toISOString`. This is
the standard era-based algorithm (eras of 146097 days = 400 years, years of
era recovered from day of era, months counted from March).
-/

/-- Year of era (0 ≤ result < 400) from day of era (0 ≤ doe < 146097). -/
def yoeFromDoe (doe : Int) : Int :=
  (doe - doe / 1460 + doe / 36524 - doe / 146096) / 365

/-- Day of year (March-based) from day of era. -/
def doyFromDoe (doe : Int) : Int :=
  doe - (365 * yoeFromDoe doe + yoeFromDoe doe / 4 - yoeFromDoe doe / 100)

/-- Civil date `(year, month, day)` of a day count since 1970-01-01. -/
def civilFromDays (z : Int) : Int × Int × Int :=
  let era := (z + 719468) / 146097
  let doe := (z + 719468) % 146097
  let yoe := yoeFromDoe doe
  let doy := doyFromDoe doe
  let mp := (5 * doy + 2) / 153
  let d := doy - (153 * mp + 2) / 5 + 1
  let m := if mp < 10 then mp + 3 else mp - 9
  let y := yoe + era * 400 + (if m ≤ 2 then 1 else 0)
  (y, m, d)

/-- Day count since 1970-01-01 of a civil date. -/
def daysFromCivil (y m d : Int) : Int :=
  let y' := y - (if m ≤ 2 then 1 else 0)
  let era := y' / 400
  let yoe := y' - era * 400
  let mp := if 2 < m then m - 3 else m + 9
  let doy := (153 * mp + 2) / 5 + d - 1
  let doe := yoe * 365 + yoe / 4 - yoe / 100 + doy
  era * 146097 + doe - 719468

theorem yoe_bounds (doe : Int) (h0 : 0 ≤ doe) (h1 : doe < 146097) :
    0 ≤ yoeFromDoe doe ∧ yoeFromDoe doe < 400 := by
  unfold yoeFromDoe; omega

set_option maxHeartbeats 4000000 in
theorem doy_bounds (doe : Int) (h0 : 0 ≤ doe) (h1 : doe < 146097) :
    0 ≤ doyFromDoe doe ∧ doyFromDoe doe ≤ 365 := by
  have hy := yoe_bounds doe h0 h1
  unfold doyFromDoe
  unfold yoeFromDoe at hy ⊢
  set y := (doe - doe / 1460 + doe / 36524 - doe / 146096) / 365 with hydef
  obtain ⟨hy0, hy400⟩ := hy
  interval_cases y <;> omega

theorem daysFromCivil_recover (era yoe mp doy z : Int)
    (hyoe0 : 0 ≤ yoe) (hyoe1 : yoe < 400)
    (hmp0 : 0 ≤ mp) (hmp1 : mp ≤ 11)
    (hz : z + 719468 = 146097 * era + (365 * yoe + yoe / 4 - yoe / 100 + doy)) :
    daysFromCivil (yoe + era * 400 + (if (if mp < 10 then mp + 3 else mp - 9) ≤ 2 then 1 else 0))
      (if mp < 10 then mp + 3 else mp - 9)
      (doy - (153 * mp + 2) / 5 + 1) = z := by
  unfold daysFromCivil
  simp only
  split_ifs <;> omega

theorem civil_inverse (z : Int) :
    daysFromCivil (civilFromDays z).1 (civilFromDays z).2.1 (civilFromDays z).2.2 = z := by
  unfold civilFromDays
  simp only
  set doe := (z + 719468) % 146097 with hdoe
  set era := (z + 719468) / 146097 with hera
  have h0 : 0 ≤ doe := by omega
  have h1 : doe < 146097 := by omega
  have hrel : z + 719468 = 146097 * era + doe := by rw [hera, hdoe]; omega
  have hyoe := yoe_bounds doe h0 h1
  have hdoy := doy_bounds doe h0 h1
  set yoe := yoeFromDoe doe with hyoedef
  set doy := doyFromDoe doe with hdoydef
  have hdd : doy = doe - (365 * yoe + yoe / 4 - yoe / 100) := by
    rw [hdoydef]; unfold doyFromDoe; rw [hyoedef]
  set mp := (5 * doy + 2) / 153 with hmpdef
  have hmp0 : 0 ≤ mp := by omega
  have hmp1 : mp ≤ 11 := by omega
  exact daysFromCivil_recover era yoe mp doy z hyoe.1 hyoe.2 hmp0 hmp1 (by omega)

theorem civil_md_bounds (z : Int) :
    1 ≤ (civilFromDays z).2.1 ∧ (civilFromDays z).2.1 ≤ 12 ∧
    1 ≤ (civilFromDays z).2.2 ∧ (civilFromDays z).2.2 ≤ 31 := by
  unfold civilFromDays
  simp only
  set doe := (z + 719468) % 146097 with hdoe
  have h0 : 0 ≤ doe := by omega
  have h1 : doe < 146097 := by omega
  have hdoy := doy_bounds doe h0 h1
  set doy := doyFromDoe doe with hdoydef
  set mp := (5 * doy + 2) / 153 with hmpdef
  have hmp0 : 0 ≤ mp := by omega
  have hmp1 : mp ≤ 11 := by omega
  clear_value doe doy mp
  split_ifs <;> omega

theorem civil_y_bound (z : Int) (hlo : -100000000 ≤ z) (hhi : z ≤ 100000000) :
    -999999 ≤ (civilFromDays z).1 ∧ (civilFromDays z).1 ≤ 999999 := by
  unfold civilFromDays
  simp only
  set doe := (z + 719468) % 146097 with hdoe
  set era := (z + 719468) / 146097 with hera
  have h0 : 0 ≤ doe := by omega
  have h1 : doe < 146097 := by omega
  have hrel : z + 719468 = 146097 * era + doe := by rw [hera, hdoe]; omega
  have hyoe := yoe_bounds doe h0 h1
  set yoe := yoeFromDoe doe with hyoedef
  clear_value doe era yoe
  split_ifs <;> omega

end PlatformCalendar

section PlatformIso

/-- Year component of a JS `Date.prototype.toISOString` output: four digits
for years 0 to 9999, otherwise an expanded six-digit year with explicit
sign. -/
def yearChars (y : Int) : List Char :=
  if 0 ≤ y ∧ y ≤ 9999 then fixedDigits 4 y.toNat
  else if 9999 < y then '+' :: fixedDigits 6 y.toNat
  else '-' :: fixedDigits 6 (-y).toNat

/-- Characters of `toISOString` of a time value `t` in milliseconds:
`YYYY-MM-DDTHH:mm:ss.sssZ`. -/
def isoChars (t : Int) : List Char :=
  let days := t / 86400000
  let msod := (t % 86400000).toNat
  let c := civilFromDays days
  yearChars c.1 ++
    ('-' :: (fixedDigits 2 c.2.1.toNat ++
      ('-' :: (fixedDigits 2 c.2.2.toNat ++
        ('T' :: (fixedDigits 2 (msod / 3600000) ++
          (':' :: (fixedDigits 2 (msod % 3600000 / 60000) ++
            (':' :: (fixedDigits 2 (msod % 60000 / 1000) ++
              ('.' :: (fixedDigits 3 (msod % 1000) ++ ['Z']))))))))))))

/-- Model of `Date.prototype.toISOString`. -/
def isoString (t : Int) : String := ⟨isoChars t⟩

/-- Expect one specific character. -/
def expectCh (c : Char) : List Char → Option (List Char)
  | x :: rest => if x = c then some rest else none
  | [] => none

/-- Parse the year part of an ISO date-time string. -/
def parseYear : List Char → Option (Int × List Char)
  | [] => none
  | c :: cs =>
    if c = '+' then (readFixed 6 cs).map (fun p => ((p.1 : Int), p.2))
    else if c = '-' then (readFixed 6 cs).map (fun p => (-(p.1 : Int), p.2))
    else (readFixed 4 (c :: cs)).map (fun p => ((p.1 : Int), p.2))

/-- Parse a full `YYYY-MM-DDTHH:mm:ss.sssZ` string to a millisecond time
value; `none` on any other input. Models the `Date` constructor applied to
an ISO 8601 UTC string. -/
def isoParseChars (cs : List Char) : Option Int :=
  match parseYear cs with
  | none => none
  | some (y, r1) =>
  match expectCh '-' r1 with
  | none => none
  | some r2 =>
  match readFixed 2 r2 with
  | none => none
  | some (mo, r3) =>
  match expectCh '-' r3 with
  | none => none
  | some r4 =>
  match readFixed 2 r4 with
  | none => none
  | some (dy, r5) =>
  match expectCh 'T' r5 with
  | none => none
  | some r6 =>
  match readFixed 2 r6 with
  | none => none
  | some (hh, r7) =>
  match expectCh ':' r7 with
  | none => none
  | some r8 =>
  match readFixed 2 r8 with
  | none => none
  | some (mi, r9) =>
  match expectCh ':' r9 with
  | none => none
  | some r10 =>
  match readFixed 2 r10 with
  | none => none
  | some (ss, r11) =>
  match expectCh '.' r11 with
  | none => none
  | some r12 =>
  match readFixed 3 r12 with
  | none => none
  | some (ms, r13) =>
  match expectCh 'Z' r13 with
  | none => none
  | some r14 =>
  match r14 with
  | [] => some (daysFromCivil y (mo : Int) (dy : Int) * 86400000 +
      ((hh * 3600000 + mi * 60000 + ss * 1000 + ms : Nat) : Int))
  | _ => none

/-- Model of `new Date(s)` for an ISO string `s`: the millisecond value, or
`none` for an unrecognized string (an Invalid Date in JS). -/
def isoParse (s : String) : Option Int := isoParseChars s.data

/-- The JS `Date` range: time values are at most 8.64e15 ms in magnitude. -/
def dateInRange (t : Int) : Prop :=
  -8640000000000000 ≤ t ∧ t ≤ 8640000000000000

instance (t : Int) : Decidable (dateInRange t) := by
  unfold dateInRange; infer_instance

theorem expectCh_cons (c : Char) (rest : List Char) : expectCh c (c :: rest) = some rest := by
  simp [expectCh]

theorem parseYear_yearChars (y : Int) (h1 : -999999 ≤ y) (h2 : y ≤ 999999) (rest : List Char) :
    parseYear (yearChars y ++ rest) = some (y, rest) := by
  unfold yearChars
  split_ifs with hA hB
  · have hsplit : fixedDigits 4 y.toNat ++ rest
        = digitChar (y.toNat / 10 ^ 3 % 10) :: (fixedDigits 3 y.toNat ++ rest) := by
      simp [fixedDigits]
    rw [hsplit]
    have hd : y.toNat / 10 ^ 3 % 10 < 10 := Nat.mod_lt _ (by norm_num)
    rw [parseYear]
    rw [if_neg (digitChar_ne_plus _ hd), if_neg (digitChar_ne_minus _ hd)]
    rw [← hsplit]
    rw [readFixed_fixedDigits 4 y.toNat rest (by omega)]
    simp only [Option.map_some']
    congr 1
    congr 1
    omega
  · simp only [List.cons_append]
    rw [parseYear]
    rw [if_pos rfl]
    rw [readFixed_fixedDigits 6 y.toNat rest (by omega)]
    simp only [Option.map_some']
    congr 1
    congr 1
    omega
  · simp only [List.cons_append]
    rw [parseYear]
    rw [if_neg (by decide), if_pos rfl]
    rw [readFixed_fixedDigits 6 (-y).toNat rest (by omega)]
    simp only [Option.map_some']
    congr 1
    congr 1
    omega

set_option maxHeartbeats 1000000 in
/-- The platform round trip: parsing the ISO rendering of a valid date
recovers its exact millisecond value. -/
theorem isoParse_isoString (t : Int)
    (h1 : -8640000000000000 ≤ t) (h2 : t ≤ 8640000000000000) :
    isoParse (isoString t) = some t := by
  rw [isoParse, isoString]
  show isoParseChars (isoChars t) = some t
  rw [isoChars]
  set days := t / 86400000 with hdays
  set msod := (t % 86400000).toNat with hmsod
  have hdlo : -100000000 ≤ days := by omega
  have hdhi : days ≤ 100000000 := by omega
  have hmsod0 : msod < 86400000 := by omega
  have hmd := civil_md_bounds days
  have hyb := civil_y_bound days hdlo hdhi
  have hinv := civil_inverse days
  set c := civilFromDays days with hc
  rw [isoParseChars]
  rw [parseYear_yearChars _ hyb.1 hyb.2]
  dsimp only
  rw [expectCh_cons]
  dsimp only
  rw [readFixed_fixedDigits 2 c.2.1.toNat _ (by omega)]
  dsimp only
  rw [expectCh_cons]
  dsimp only
  rw [readFixed_fixedDigits 2 c.2.2.toNat _ (by omega)]
  dsimp only
  rw [expectCh_cons]
  dsimp only
  rw [readFixed_fixedDigits 2 (msod / 3600000) _ (by omega)]
  dsimp only
  rw [expectCh_cons]
  dsimp only
  rw [readFixed_fixedDigits 2 (msod % 3600000 / 60000) _ (by omega)]
  dsimp only
  rw [expectCh_cons]
  dsimp only
  rw [readFixed_fixedDigits 2 (msod % 60000 / 1000) _ (by omega)]
  dsimp only
  rw [expectCh_cons]
  dsimp only
  rw [readFixed_fixedDigits 3 (msod % 1000) _ (by omega)]
  dsimp only
  rw [expectCh_cons]
  dsimp only
  have hm : ((c.2.1.toNat : Int)) = c.2.1 := by omega
  have hd : ((c.2.2.toNat : Int)) = c.2.2 := by omega
  rw [hm, hd, hinv]
  congr 1
  omega

/-- An ISO rendering is never the empty string (it ends in `Z`). -/
theorem isoString_ne_empty (t : Int) : isoString t ≠ "" := by
  rw [isoString, isoChars]
  intro h
  have hlen := congrArg (fun s => s.data.length) h
  simp at hlen

end PlatformIso
section Serializer

/-- The serializer's `dateFormat` option; the constructor default is `iso`. -/
inductive DateFormat where
  | iso
  | timestamp
  | formatted
deriving DecidableEq, Repr

/-- A JSON-like JS value tree. `jdate` is a `Date` object with a finite time
value; `jinvalid` is a JS Invalid Date (it arises only from parsing an
unrecognized date string and occurs in no theorem of this file). JSON text
itself is modelled by its parse tree, the platform codec
`JSON.stringify` / `JSON.parse` being lossless on trees without dates. -/
inductive JValue where
  | jnull
  | jbool (b : Bool)
  | jnum (n : Int)
  | jstr (s : String)
  | jarr (elems : List JValue)
  | jobj (fields : List (String × JValue))
  | jdate (ms : Int)
  | jinvalid

/-- Model of `Date.prototype.toLocaleString("zh-CN")`; the serializer stores
its output only as an opaque `$value` payload (never parsed back, since the
`formatted` reviver prefers `$iso`), so only its type matters. -/
def toLocaleStringZhCN (t : Int) : String :=
  let days := t / 86400000
  let msod := (t % 86400000).toNat
  let c := civilFromDays days
  toString c.1 ++ "/" ++ toString c.2.1 ++ "/" ++ toString c.2.2 ++ " " ++
    toString (msod / 3600000) ++ ":" ++
    List.asString (fixedDigits 2 (msod % 3600000 / 60000)) ++ ":" ++
    List.asString (fixedDigits 2 (msod % 60000 / 1000))

/-- The serializer's `dateReplacer` (src/unnamed/part_001 lines 17-30): the
tagged record a `Date` is replaced with, per date format. -/
def tagDate (fmt : DateFormat) (t : Int) : JValue :=
  match fmt with
  | .timestamp => .jobj [("$type", .jstr "Date"), ("$value", .jnum t)]
  | .formatted => .jobj [("$type", .jstr "Date"),
      ("$value", .jstr (toLocaleStringZhCN t)), ("$iso", .jstr (isoString t))]
  | .iso => .jobj [("$type", .jstr "Date"), ("$value", .jstr (isoString t))]

mutual

/-- `JSONSerializer.stringify` at the tree level. The replacer walks the
object tree top-down; every `Date`-valued field or element of an object or
array has already been replaced by its tagged record when the child itself
is serialized, and a `Date` at the root is converted by `Date.prototype.toJSON`
(which runs before the replacer) to its bare ISO string. A nested Invalid
Date would make `toISOString` throw in JS; it is mapped to `jnull` here and
occurs in no theorem. -/
def stringifyTree (fmt : DateFormat) : JValue → JValue
  | .jobj fs => .jobj (stringifyFields fmt fs)
  | .jarr xs => .jarr (stringifyElems fmt xs)
  | .jdate t => .jstr (isoString t)
  | .jinvalid => .jnull
  | v => v

def stringifyFields (fmt : DateFormat) : List (String × JValue) → List (String × JValue)
  | [] => []
  | (k, v) :: rest => (k, stringifyEntry fmt v) :: stringifyFields fmt rest

def stringifyElems (fmt : DateFormat) : List JValue → List JValue
  | [] => []
  | v :: rest => stringifyEntry fmt v :: stringifyElems fmt rest

/-- Serialization of one object field or array element: the parent's
replacer has already substituted the tagged record for a `Date` value;
the tagged record's own fields are primitives, so serializing it yields
itself. -/
def stringifyEntry (fmt : DateFormat) : JValue → JValue
  | .jdate t => tagDate fmt t
  | .jinvalid => .jnull
  | v => stringifyTree fmt v

end

/-- JS truthiness of a value. -/
def truthyJ : JValue → Bool
  | .jnull => false
  | .jbool b => b
  | .jnum n => n != 0
  | .jstr s => s != ""
  | .jarr _ => true
  | .jobj _ => true
  | .jdate _ => true
  | .jinvalid => true

/-- JS truthiness of a property access that may be absent (`undefined`). -/
def truthyOptJ : Option JValue → Bool
  | some v => truthyJ v
  | none => false

/-- Model of `new Date(x)` for the reviver's argument: a number is a time
value, a string is parsed as ISO (anything unrecognized is an Invalid
Date), `null` coerces to 0, a boolean to 0 or 1, everything else (and an
absent value) gives an Invalid Date. Only the number and ISO-string cases
are reachable from this serializer's own output. -/
def newDateFrom : Option JValue → JValue
  | some (.jnum t) => .jdate t
  | some (.jstr s) =>
    match isoParse s with
    | some t => .jdate t
    | none => .jinvalid
  | some .jnull => .jdate 0
  | some (.jbool b) => .jdate (if b then 1 else 0)
  | some _ => .jinvalid
  | none => .jinvalid

/-- The serializer's reviver (src/unnamed/part_001 lines 52-59) applied to
one parsed value: an object whose `$type` property is `"Date"` becomes a
`Date` built from `$iso` (when the format is `formatted` and `$iso` is
truthy) or else from `$value`; everything else is returned unchanged. -/
def reviveNode (fmt : DateFormat) (v : JValue) : JValue :=
  match v with
  | .jobj fs =>
    match fs.lookup "$type" with
    | some (.jstr "Date") =>
      newDateFrom
        (if fmt = .formatted ∧ truthyOptJ (fs.lookup "$iso") = true then fs.lookup "$iso"
         else fs.lookup "$value")
    | _ => .jobj fs
  | _ => v

mutual

/-- `JSONSerializer.parse` at the tree level: `JSON.parse` calls the reviver
bottom-up on every parsed value; on primitives and arrays the reviver is the
identity (a primitive or array has no `$type` property). -/
def parseTree (fmt : DateFormat) : JValue → JValue
  | .jobj fs => reviveNode fmt (.jobj (parseFields fmt fs))
  | .jarr xs => .jarr (parseElems fmt xs)
  | v => v

def parseFields (fmt : DateFormat) : List (String × JValue) → List (String × JValue)
  | [] => []
  | (k, v) :: rest => (k, parseTree fmt v) :: parseFields fmt rest

def parseElems (fmt : DateFormat) : List JValue → List JValue
  | [] => []
  | v :: rest => parseTree fmt v :: parseElems fmt rest

end

theorem stringifyTree_tagDate (fmt : DateFormat) (t : Int) :
    stringifyTree fmt (tagDate fmt t) = tagDate fmt t := by
  cases fmt <;>
    simp [tagDate, stringifyTree, stringifyFields, stringifyEntry]

theorem parseTree_tagDate (fmt : DateFormat) (t : Int) (h : dateInRange t) :
    parseTree fmt (tagDate fmt t) = .jdate t := by
  obtain ⟨h1, h2⟩ := h
  have hiso := isoParse_isoString t h1 h2
  have hne := isoString_ne_empty t
  cases fmt <;>
    simp [tagDate, parseTree, parseFields, reviveNode, newDateFrom, List.lookup,
      truthyOptJ, truthyJ, hiso, hne]

end Serializer
section DataModel

/-- `ID = number | string` (src/src/D3Timeline.ts line 106); id numbers in
the claims are integers. JS `===` on ids is constructor-wise equality. -/
inductive ID where
  | num (n : Int)
  | str (s : String)
deriving DecidableEq, Repr

/-- JS falsiness of an `ID`: the number 0 and the empty string are falsy. -/
def idFalsy : ID → Bool
  | .num n => n == 0
  | .str s => s == ""

structure TimelineData where
  id : ID
  name : String
  color : String
deriving DecidableEq, Repr

structure EventStage where
  id : ID
  index : Int
deriving DecidableEq, Repr

inductive EvType where
  | point
  | range
deriving DecidableEq, Repr

/-- `EventData` with `Date` fields as millisecond time values. -/
structure EventData where
  id : ID
  timelineId : ID
  title : String
  description : String
  startTime : Int
  endTime : Int
  color : String
  type : EvType
  stage : Option EventStage
deriving DecidableEq, Repr

structure TimeRange where
  start : Int
  «end» : Int
deriving DecidableEq, Repr

/-- The instance state the claims observe: `timelines`, `events`,
`timeRange`. View state (scales, transforms, DOM nodes) is outside the
model; `render`, `resize` and `fitRange` mutate only view state. -/
structure TLState where
  timelines : List TimelineData
  events : List EventData
  timeRange : TimeRange
deriving DecidableEq, Repr

/-- Dimension resolution in the constructor (lines 260-266): a non-positive
option falls back to the container's client size when that is positive.
Dimensions are JS numbers, modelled as `ℚ`. -/
def resolveDim (opt client : ℚ) : ℚ :=
  if opt ≤ 0 ∧ 0 < client then client else opt

/-- The constructor's dimension handling and fail-fast check (lines
256-274): after resolution, construction throws exactly when the resolved
width is non-positive; no check inspects the resolved height. -/
def constructorDims (optW optH clientW clientH : ℚ) : Except String (ℚ × ℚ) :=
  let w := resolveDim optW clientW
  let h := resolveDim optH clientH
  if w ≤ 0 then .error "D3Timeline err: width is zero." else .ok (w, h)

/-- The zoom scale extent set by `setupZoom` (lines 447-466): with initial
domain span `initialRange` ms, the code computes
`minScale = zoomMax / initialRange` and `maxScale = initialRange / zoomMin`
and installs `scaleExtent([max(1, minScale), max(1, maxScale)])`. -/
def setupZoomScaleExtent (timeRange : TimeRange) (zoomMin zoomMax : ℚ) : ℚ × ℚ :=
  let initialRange : ℚ := ((timeRange.«end» - timeRange.start : Int) : ℚ)
  let minScale := zoomMax / initialRange
  let maxScale := initialRange / zoomMin
  (max 1 minScale, max 1 maxScale)

/-- The scale-extent lower bound the specification states: written from the
spec sentence, for comparison with the code's value. -/
def specScaleExtentLower (span zoomMax : ℚ) : ℚ := max 1 (span / zoomMax)

/-- `addTimeline` (lines 657-676): pushes a new timeline (given id or a
generated one) and returns it; `resize` touches only view state. -/
def addTimeline (st : TLState) (name : String) (color : String)
    (id : Option ID) (genId : ID) : TimelineData × TLState :=
  let timeline : TimelineData := { id := id.getD genId, name := name, color := color }
  (timeline, { st with timelines := st.timelines ++ [timeline] })

/-- `removeTimeline` (lines 717-721): drops the timelines with the given id
and every event whose `timelineId` equals it. -/
def removeTimeline (st : TLState) (id : ID) : TLState :=
  { st with
    timelines := st.timelines.filter (fun t => t.id != id),
    events := st.events.filter (fun e => e.timelineId != id) }

/-- A sequence of `addTimeline` calls, one per configuration
`(name, color, explicit id, generated id)`. -/
def addTimelineSeq (st : TLState) (cfgs : List (String × String × Option ID × ID)) : TLState :=
  cfgs.foldl (fun s c => (addTimeline s c.1 c.2.1 c.2.2.1 c.2.2.2).2) st

/-- The timeline object one `addTimeline` configuration produces. -/
def mkTimelineOf (c : String × String × Option ID × ID) : TimelineData :=
  { id := c.2.2.1.getD c.2.2.2, name := c.1, color := c.2.1 }

/-- `Partial<EventData>`: the configuration accepted by `addEvent` and
`addEvents`; absent fields are `none`. -/
structure EventInput where
  id : Option ID
  timelineId : Option ID
  title : Option String
  description : Option String
  startTime : Option Int
  endTime : Option Int
  color : Option String
  stage : Option EventStage
deriving DecidableEq, Repr

/-- `x || dflt` for an optional string: absent or empty (falsy) falls back. -/
def strOrElse (o : Option String) (dflt : String) : String :=
  match o with
  | some s => if s = "" then dflt else s
  | none => dflt

/-- The event-object literal shared verbatim by `addEvent` (lines 742-752)
and `addEvents` (lines 781-791). `now` models `new Date()`; a `Date` object
is always truthy, so `||` on the date fields falls through only when the
field is absent, and `type` is `range` exactly when an end time was
supplied. -/
def mkEventData (event : EventInput) (tlid : ID) (timeline : TimelineData)
    (now : Int) (genId : ID) : EventData :=
  { id := event.id.getD genId
    timelineId := tlid
    title := strOrElse event.title ""
    description := strOrElse event.description ""
    startTime := event.startTime.getD now
    endTime := ((event.endTime).orElse (fun _ => event.startTime)).getD now
    color := strOrElse event.color timeline.color
    type := if event.endTime.isSome then EvType.range else EvType.point
    stage := event.stage }

/-- `addEvent` (lines 730-760). The timeline lookup compares `t.id === timelineId`
against the parameter only; on failure the call returns `null` with the
state untouched. After a successful lookup the parameter is reassigned
`timelineId ?? event.timelineId` and a falsy result throws. The result
pairs the JS return value with the state after the call; a thrown error is
`Except.error`. -/
def addEvent (st : TLState) (event : EventInput) (timelineId : Option ID)
    (now : Int) (genId : ID) : Except String (Option EventData × TLState) :=
  match st.timelines.find? (fun t => some t.id == timelineId) with
  | none => .ok (none, st)
  | some timeline =>
    match timelineId.orElse (fun _ => event.timelineId) with
    | none => .error "The timelineId is not specified."
    | some tlid =>
      if idFalsy tlid then .error "The timelineId is not specified."
      else
        let eventData := mkEventData event tlid timeline now genId
        .ok (some eventData, { st with events := st.events ++ [eventData] })

/-- The per-event body of the `events.map` in `addEvents` (lines 776-793),
processed left to right with the first failure throwing; `gid i` models the
`generateID()` call for the i-th event. -/
def addEventsGo (st : TLState) (timelineId : Option ID) (now : Int) (gid : Nat → ID) :
    List EventInput → Nat → Except String (List EventData)
  | [], _ => .ok []
  | event :: rest, i =>
    match timelineId.orElse (fun _ => event.timelineId) with
    | none => .error "The timelineId is not specified."
    | some target =>
      if idFalsy target then .error "The timelineId is not specified."
      else
        match st.timelines.find? (fun t => t.id == target) with
        | none => .error "The timeineId is invalid."
        | some timeline =>
          match addEventsGo st timelineId now gid rest (i + 1) with
          | .error e => .error e
          | .ok restEvents => .ok (mkEventData event target timeline now (gid i) :: restEvents)

/-- `addEvents` (lines 769-803): `null` on an empty input; otherwise the
mapped events are appended only after the whole map succeeds (a throw
leaves the events array untouched). -/
def addEvents (st : TLState) (events : List EventInput) (timelineId : Option ID)
    (now : Int) (gid : Nat → ID) : Except String (Option (List EventData) × TLState) :=
  if events.isEmpty then .ok (none, st)
  else
    match addEventsGo st timelineId now gid events 0 with
    | .error e => .error e
    | .ok added => .ok (some added, { st with events := st.events ++ added })

end DataModel
section StageLines

/-- Connector path styles (`StageLineParams.path`). -/
inductive PathType where
  | straight
  | arc
  | fluid
  | magnet
  | grid
deriving DecidableEq, Repr

/-- The geometry options `renderStageLines` reads (JS numbers as `ℚ`). -/
structure RenderOpts where
  marginTop : ℚ
  timelineHeight : ℚ
  timelineSpacing : ℚ
  pathType : PathType

/-- `calculateTimelineOffsetY` (lines 560-566): vertical position from the
timeline's index, stacked from the bottom; 0 without a timeline. -/
def calculateTimelineOffsetY (opts : RenderOpts) (timelines : List TimelineData)
    (timeline : Option TimelineData) : ℚ :=
  match timeline with
  | some tl =>
    ((timelines.length : ℚ) - (timelines.indexOf tl : ℚ) - 1) *
      (opts.timelineHeight + opts.timelineSpacing) + opts.marginTop
  | none => 0

/-- One anchor point of a stage path (lines 1263-1275): x from the scale at
the event's start time, y centered on its timeline, width the pixel width
of a range event. -/
structure StagePoint where
  x : ℚ
  y : ℚ
  event : EventData
  width : ℚ

def mkStagePoint (opts : RenderOpts) (timelines : List TimelineData)
    (xScale : Int → ℚ) (event : EventData) : StagePoint :=
  let timeline := timelines.find? (fun t => t.id == event.timelineId)
  { x := xScale event.startTime
    y := match timeline with
         | some tl =>
           calculateTimelineOffsetY opts timelines (some tl) + opts.timelineHeight / 2
         | none => 0
    event := event
    width := if event.type = EvType.range
             then xScale event.endTime - xScale event.startTime else 0 }

/-- One path segment emitted by `generatePathSegment` (lines 1125-1158)
with its control-point geometry; `magnet` and the stepped `grid` case are
each a run of three line commands. -/
inductive PathSegD where
  | lineTo (ex ey : ℚ)
  | quadTo (cx cy ex ey : ℚ)
  | cubicTo (c1x c1y c2x c2y ex ey : ℚ)
  | stepsTo (m1x m1y m2x m2y ex ey : ℚ)

def generatePathSegment (s e : ℚ × ℚ) (pathType : PathType) : PathSegD :=
  match pathType with
  | .arc =>
    let midX := (s.1 + e.1) / 2
    let arcHeight := |e.1 - s.1| * 0.2
    .quadTo midX (min s.2 e.2 - arcHeight) e.1 e.2
  | .fluid =>
    let cp1x := s.1 + (e.1 - s.1) * 0.5
    let cp2x := s.1 + (e.1 - s.1) * 0.5
    .cubicTo cp1x s.2 cp2x e.2 e.1 e.2
  | .magnet =>
    let midY := (s.2 + e.2) / 2
    .stepsTo s.1 midY e.1 midY e.1 e.2
  | .grid =>
    if |s.2 - e.2| < 5 then .lineTo e.1 e.2
    else .stepsTo (s.1 + 30) s.2 (s.1 + 30) e.2 e.1 e.2
  | .straight => .lineTo e.1 e.2

/-- A rendered stage path: the `M` start point plus one generated segment
per adjacent pair of points (the loop of lines 1277-1284). -/
structure StagePath where
  startX : ℚ
  startY : ℚ
  segs : List PathSegD

def buildSegs (pathType : PathType) : List StagePoint → List PathSegD
  | p :: q :: rest =>
    generatePathSegment (p.x, p.y) (q.x, q.y) pathType :: buildSegs pathType (q :: rest)
  | _ => []

/-- The empty-points case cannot arise: a path is built only for a group of
at least two events. -/
def buildStagePath (pathType : PathType) (points : List StagePoint) : StagePath :=
  match points with
  | [] => { startX := 0, startY := 0, segs := [] }
  | p :: _ => { startX := p.x, startY := p.y, segs := buildSegs pathType points }

/-- Append an event to its stage group, preserving first-seen key order
(the JS `Map` of lines 1240-1250). -/
def addToGroups (gs : List (ID × List EventData)) (k : ID) (e : EventData) :
    List (ID × List EventData) :=
  match gs with
  | [] => [(k, [e])]
  | (k', es) :: rest =>
    if k' = k then (k', es ++ [e]) :: rest else (k', es) :: addToGroups rest k e

/-- The stage groups of an event list: events carrying a `stage`, grouped
by `stage.id` in encounter order. -/
def stageGroups (events : List EventData) : List (ID × List EventData) :=
  events.foldl
    (fun gs e =>
      match e.stage with
      | some st => addToGroups gs st.id e
      | none => gs) []

/-- The sort key of line 1255, `a.stage!.index || 0` (for an integer index,
`index || 0` is `index`; events in a group always carry a stage). -/
def stageIndexOf (e : EventData) : Int :=
  match e.stage with
  | some st => st.index
  | none => 0

/-- The stable `Array.prototype.sort` by stage index. -/
def sortByStageIndex (events : List EventData) : List EventData :=
  events.mergeSort (fun a b => stageIndexOf a ≤ stageIndexOf b)

/-- `renderStageLines` (lines 1236-1333) as the list of rendered stage
paths keyed by stage id: nothing when the stage lines are hidden, else one
path per stage group with at least two members. Arrowheads are separate
`stage-arrow` elements, not part of the `stage-path`. -/
def renderStageLines (visible : Bool) (opts : RenderOpts)
    (timelines : List TimelineData) (events : List EventData)
    (xScale : Int → ℚ) : List (ID × StagePath) :=
  if visible = false then []
  else
    (stageGroups events).filterMap (fun g =>
      let sorted := sortByStageIndex g.2
      if sorted.length < 2 then none
      else some (g.1, buildStagePath opts.pathType (sorted.map (mkStagePoint opts timelines xScale))))

end StageLines

section ExportImport

/-- The JSON image of an `ID`. -/
def idJ : ID → JValue
  | .num n => .jnum n
  | .str s => .jstr s

def stageJ (s : EventStage) : JValue :=
  .jobj [("id", idJ s.id), ("index", .jnum s.index)]

def evTypeJ : EvType → JValue
  | .point => .jstr "point"
  | .range => .jstr "range"

def tlJ (t : TimelineData) : JValue :=
  .jobj [("id", idJ t.id), ("name", .jstr t.name), ("color", .jstr t.color)]

/-- A JS event object; `JSON.stringify` skips an absent (`undefined`)
`stage` field. -/
def evJ (e : EventData) : JValue :=
  .jobj ([("id", idJ e.id), ("timelineId", idJ e.timelineId), ("title", .jstr e.title),
    ("description", .jstr e.description), ("startTime", .jdate e.startTime),
    ("endTime", .jdate e.endTime), ("color", .jstr e.color), ("type", evTypeJ e.type)] ++
    (match e.stage with
     | some s => [("stage", stageJ s)]
     | none => []))

def timeRangeJ (tr : TimeRange) : JValue :=
  .jobj [("start", .jdate tr.start), ("end", .jdate tr.«end»)]

/-- `exportData` (lines 1623-1629) as a JS value: the three fields,
shallow-copied. -/
def exportDataJ (st : TLState) : JValue :=
  .jobj [("timelines", .jarr (st.timelines.map tlJ)),
    ("events", .jarr (st.events.map evJ)),
    ("timeRange", timeRangeJ st.timeRange)]

/-- `exportDataString` (lines 1635-1639): the serialized tree of
`exportData()` under the serializer's default `iso` date format
(`autoFormat` selects only the whitespace option). -/
def exportDataString (st : TLState) : JValue :=
  stringifyTree DateFormat.iso (exportDataJ st)

/-- `importData` runs on whatever the parsed payload holds, so its view of
the instance state is kept at the JS-value level. -/
structure StateJ where
  timelines : List JValue
  events : List JValue
  timeRange : JValue

/-- Property access `data.k`: throws on `null`, yields `undefined` (`none`)
for an absent property or a primitive receiver. -/
def propAccess : JValue → String → Except String (Option JValue)
  | .jnull, _ => .error "TypeError: cannot read properties of null"
  | .jobj fs, k => .ok (fs.lookup k)
  | _, _ => .ok none

/-- Array spread `[...x]`: arrays spread to their elements, strings to
their characters; everything else (objects, primitives, absent values)
throws `not iterable`. -/
def listSpread : Option JValue → Except String (List JValue)
  | some (.jarr xs) => .ok xs
  | some (.jstr s) => .ok (s.data.map (fun c => .jstr (String.mk [c])))
  | _ => .error "TypeError: not iterable"

/-- Object spread `{...x}`: copies an object's fields; a string contributes
its indexed characters; any other value gives an empty object; never
throws. -/
def objSpread : Option JValue → JValue
  | some (.jobj fs) => .jobj fs
  | some (.jstr s) =>
    .jobj (s.data.enum.map (fun p => (toString p.1, JValue.jstr (String.mk [p.2]))))
  | _ => .jobj []

/-- The data-join key `(d) => d.id.toString()` of `renderTimelines`,
`renderTimelineLabels` and `renderEvents` (lines 888, 944, 1013), evaluated
on one array element: it throws unless the element is an object whose `id`
property is present and non-null (`toString` exists on every other value;
property access on a primitive autoboxes and yields `undefined`, on `null`
it throws). -/
def joinKeyOk : JValue → Bool
  | .jobj fs =>
    match fs.lookup "id" with
    | some .jnull => false
    | some _ => true
    | none => false
  | _ => false

/-- `importData` (lines 1646-1658). The try block assigns
`this.timelines = [...data.timelines]`, `this.events = [...data.events]`,
`this.timeRange = {...data.timeRange}` in that order, then calls
`xScale.domain` and `resize()` before returning `true`; a throw anywhere in
the block is caught, logged, and reported as `false`, with every assignment
made before the throw kept. `resize()` runs `render(true)`, so the renders
execute inside the try: the data-join key (`joinKeyOk`) is evaluated on
every element of the freshly assigned `timelines` and `events` arrays and
its throw escapes to the catch — after all three assignments. It is the
only synchronous payload-dependent throw in that tail: `xScale.domain`,
`setupScales` and the d3 scale/axis/ticks calls coerce with `+x`/`new Date`
and never throw; keys of data bound to existing DOM nodes re-evaluate
values that already passed at their last bind; every render callback that
dereferences event fields further (`transform`, label text, positions) is
attached to a d3 transition and runs later on a timer, outside the try;
`renderStageLines` guards each `stage` access with its truthiness; and
`fitRange()` is `async`, so nothing it throws surfaces synchronously. -/
def importData (st : StateJ) (data : JValue) : Bool × StateJ :=
  match propAccess data "timelines" with
  | .error _ => (false, st)
  | .ok tlsField =>
    match listSpread tlsField with
    | .error _ => (false, st)
    | .ok tls =>
      match propAccess data "events" with
      | .error _ => (false, { st with timelines := tls })
      | .ok evsField =>
        match listSpread evsField with
        | .error _ => (false, { st with timelines := tls })
        | .ok evs =>
          match propAccess data "timeRange" with
          | .error _ => (false, { st with timelines := tls, events := evs })
          | .ok trField =>
            (tls.all joinKeyOk && evs.all joinKeyOk,
              { timelines := tls, events := evs, timeRange := objSpread trField })

/-- `importDataString` (lines 1664-1666):
`importData(new JSONSerializer().parse(data))`. The platform `JSON.parse`
inside `JSONSerializer.parse` runs outside any try/catch, so its outcome
enters as an `Except` and a parse failure propagates out of the call;
a successful parse is revived under the serializer's default `iso` format
and imported. -/
def importDataString (st : StateJ) (parsed : Except String JValue) :
    Except String (Bool × StateJ) :=
  match parsed with
  | .error e => .error e
  | .ok v => .ok (importData st (parseTree DateFormat.iso v))

end ExportImport

section HeapExport

/-- The value held by a `Date`-typed field of an in-memory event object:
a `Date` instance, or (after the serializer's replacer ran on the object)
a plain replaced value. -/
inductive DateSlot where
  | dateV (ms : Int)
  | plainV (v : JValue)

def DateSlot.isDate : DateSlot → Bool
  | .dateV _ => true
  | .plainV _ => false

/-- An instance-owned event object whose date fields may have been
reassigned in place. -/
structure HeapEvent where
  id : ID
  timelineId : ID
  title : String
  description : String
  startTime : DateSlot
  endTime : DateSlot
  color : String
  type : EvType
  stage : Option EventStage

structure HeapState where
  timelines : List TimelineData
  events : List HeapEvent
  timeRange : TimeRange

/-- The replacer's assignment `v[subKey] = dateReplacer(subValue)` on one
field: only a value that is a `Date` instance is replaced by its tagged
record. -/
def mutateSlot (fmt : DateFormat) : DateSlot → DateSlot
  | .dateV t => .plainV (tagDate fmt t)
  | s => s

/-- The in-place effect of the replacer on one event object (lines 33-40 of
src/unnamed/part_001): each `Date`-valued field is reassigned. -/
def replacerMutate (fmt : DateFormat) (e : HeapEvent) : HeapEvent :=
  { e with startTime := mutateSlot fmt e.startTime, endTime := mutateSlot fmt e.endTime }

/-- Serialized image of one date slot. -/
def dateSlotJ (fmt : DateFormat) : DateSlot → JValue
  | .dateV t => tagDate fmt t
  | .plainV v => stringifyTree fmt v

def heapEvJ (fmt : DateFormat) (e : HeapEvent) : JValue :=
  .jobj ([("id", idJ e.id), ("timelineId", idJ e.timelineId), ("title", .jstr e.title),
    ("description", .jstr e.description), ("startTime", dateSlotJ fmt e.startTime),
    ("endTime", dateSlotJ fmt e.endTime), ("color", .jstr e.color), ("type", evTypeJ e.type)] ++
    (match e.stage with
     | some s => [("stage", stageJ s)]
     | none => []))

/-- `exportDataString` with the aliasing of `exportData` made explicit: the
array spreads are shallow, so the serialized event objects are the
instance's own and the replacer's in-place field reassignments survive the
call, while the spread `{...this.timeRange}` is a fresh object, leaving the
instance's `timeRange` (and its `timelines`, which hold no `Date` fields)
untouched. Returns the serialized tree and the instance state after the
call. -/
def exportDataStringHeap (fmt : DateFormat) (st : HeapState) : JValue × HeapState :=
  (.jobj [("timelines", .jarr (st.timelines.map tlJ)),
    ("events", .jarr (st.events.map (heapEvJ fmt))),
    ("timeRange", .jobj [("start", tagDate fmt st.timeRange.start),
      ("end", tagDate fmt st.timeRange.«end»)])],
   { st with events := st.events.map (replacerMutate fmt) })

end HeapExport
section ClaimHelpers

/-- The property C5 states of an accepted event configuration and the
stored event built from it. -/
def eventTypeSpec (ev : EventInput) (e : EventData) : Prop :=
  (ev.endTime = none → ∀ s, ev.startTime = some s → e.endTime = s ∧ e.type = EvType.point) ∧
  (∀ x, ev.endTime = some x → e.type = EvType.range)

theorem mkEventData_eventTypeSpec (ev : EventInput) (tlid : ID) (timeline : TimelineData)
    (now : Int) (gid : ID) : eventTypeSpec ev (mkEventData ev tlid timeline now gid) := by
  constructor
  · intro hnone s hs
    simp [mkEventData, hnone, hs, Option.orElse]
  · intro x hx
    simp [mkEventData, hx]

theorem addEventsGo_forall₂ (st : TLState) (tid : Option ID) (now : Int) (gid : Nat → ID) :
    ∀ (evs : List EventInput) (i : Nat) (out : List EventData),
      addEventsGo st tid now gid evs i = .ok out →
      List.Forall₂ eventTypeSpec evs out := by
  intro evs
  induction evs with
  | nil =>
    intro i out h
    rw [addEventsGo] at h
    cases h
    exact List.Forall₂.nil
  | cons ev rest ih =>
    intro i out h
    rw [addEventsGo] at h
    cases hor : tid.orElse (fun _ => ev.timelineId) with
    | none => rw [hor] at h; cases h
    | some target =>
      rw [hor] at h
      dsimp only at h
      by_cases hf : idFalsy target = true
      · rw [if_pos hf] at h; cases h
      · rw [if_neg hf] at h
        cases hfind : st.timelines.find? (fun t => t.id == target) with
        | none => rw [hfind] at h; cases h
        | some timeline =>
          rw [hfind] at h
          dsimp only at h
          cases hrec : addEventsGo st tid now gid rest (i + 1) with
          | error e => rw [hrec] at h; cases h
          | ok restEvents =>
            rw [hrec] at h
            dsimp only at h
            cases h
            exact List.Forall₂.cons (mkEventData_eventTypeSpec ev target timeline now (gid i))
              (ih (i + 1) restEvents hrec)

theorem addTimelineSeq_timelines (cfgs : List (String × String × Option ID × ID)) :
    ∀ st : TLState,
      (addTimelineSeq st cfgs).timelines = st.timelines ++ cfgs.map mkTimelineOf ∧
      (addTimelineSeq st cfgs).events = st.events ∧
      (addTimelineSeq st cfgs).timeRange = st.timeRange := by
  induction cfgs with
  | nil => intro st; simp [addTimelineSeq]
  | cons c rest ih =>
    intro st
    have hstep : addTimelineSeq st (c :: rest)
        = addTimelineSeq (addTimeline st c.1 c.2.1 c.2.2.1 c.2.2.2).2 rest := by
      simp [addTimelineSeq]
    rw [hstep]
    obtain ⟨h1, h2, h3⟩ := ih (addTimeline st c.1 c.2.1 c.2.2.1 c.2.2.2).2
    refine ⟨?_, ?_, ?_⟩
    · rw [h1]; simp [addTimeline, mkTimelineOf]
    · rw [h2]; simp [addTimeline]
    · rw [h3]; simp [addTimeline]

end ClaimHelpers

section Claims

/-- C1: the specification states that the zoom scale extent set in
`setupZoom` has lower bound `max(1, span / zoomMax)` (and upper bound
`max(1, span / zoomMin)`), so that the visible span can never exceed
`zoomMax`. The code computes the reciprocal, `max(1, zoomMax / span)`.
Evaluated at a two-year span (63072000000 ms) with the default
`zoomMax` of one year (31536000000 ms) and default `zoomMin` of
691200000 ms: the code's lower bound is 1, the specified bound is 2, and at
the admitted scale 1 the visible span (span / 1, two years) exceeds
`zoomMax` — contradicting the code's own documentation of `zoomMax` as the
maximum zoomable time range. The upper bound `max(1, span / zoomMin)`
agrees with the specification. -/
theorem claim_C1_zoom_scale_extent_bug :
    (setupZoomScaleExtent ⟨0, 63072000000⟩ 691200000 31536000000).1 = 1 ∧
    specScaleExtentLower 63072000000 31536000000 = 2 ∧
    (1 : ℚ) ≠ 2 ∧
    (63072000000 : ℚ) / 1 > 31536000000 ∧
    (setupZoomScaleExtent ⟨0, 63072000000⟩ 691200000 31536000000).2
      = max 1 ((63072000000 : ℚ) / 691200000) := by
  refine ⟨?_, ?_, by norm_num, by norm_num, ?_⟩
  · unfold setupZoomScaleExtent
    have h : ((63072000000 - 0 : Int) : ℚ) = 63072000000 := by norm_num
    simp only [h]
    rw [max_eq_left (by norm_num)]
  · unfold specScaleExtentLower
    rw [max_eq_right (by norm_num)]
    norm_num
  · unfold setupZoomScaleExtent
    have h : ((63072000000 - 0 : Int) : ℚ) = 63072000000 := by norm_num
    simp only [h]

/-- C2: for a timeline id that resolves to no existing timeline, the
single-add `addEvent` returns `null` with the events array unchanged, while
the batch-add `addEvents` throws — the two failure modes are asymmetric. -/
theorem claim_C2_unknown_timeline_asymmetry (st : TLState) (ev : EventInput) (tid : ID)
    (now : Int) (gid : ID) (gids : Nat → ID)
    (h : ∀ t ∈ st.timelines, t.id ≠ tid) :
    addEvent st ev (some tid) now gid = .ok (none, st) ∧
    ∃ msg, addEvents st [ev] (some tid) now gids = .error msg := by
  have hfind : st.timelines.find? (fun t => some t.id == some tid) = none := by
    rw [List.find?_eq_none]
    intro t ht
    simpa using h t ht
  have hfind2 : st.timelines.find? (fun t => t.id == tid) = none := by
    rw [List.find?_eq_none]
    intro t ht
    simpa using h t ht
  constructor
  · rw [addEvent, hfind]
  · rw [addEvents]
    rw [if_neg (by simp)]
    rw [addEventsGo]
    have horelse : (some tid).orElse (fun _ => ev.timelineId) = some tid := rfl
    rw [horelse]
    dsimp only
    by_cases hf : idFalsy tid = true
    · rw [if_pos hf]
      exact ⟨_, rfl⟩
    · rw [if_neg hf, hfind2]
      exact ⟨_, rfl⟩

/-- C2 witness: a concrete state with one timeline (id 1) and the
unresolvable id 2. -/
theorem claim_C2_witness :
    addEvent ⟨[⟨ID.num 1, "a", "#fff"⟩], [], ⟨0, 1000⟩⟩
        ⟨none, none, some "E", none, some 100, none, none, none⟩
        (some (ID.num 2)) 0 (ID.str "g") =
      .ok (none, ⟨[⟨ID.num 1, "a", "#fff"⟩], [], ⟨0, 1000⟩⟩) ∧
    ∃ msg, addEvents ⟨[⟨ID.num 1, "a", "#fff"⟩], [], ⟨0, 1000⟩⟩
        [⟨none, none, some "E", none, some 100, none, none, none⟩]
        (some (ID.num 2)) 0 (fun _ => ID.str "g") = .error msg :=
  claim_C2_unknown_timeline_asymmetry _ _ _ _ _ _ (by decide)

/-- C5: an event accepted by `addEvent` with no end time supplied stores
`endTime = startTime` and is classified `point`; with any end time supplied
it is classified `range`; and the same holds for every configuration and
stored event, pairwise, in an accepted `addEvents` batch. -/
theorem claim_C5_point_range_classification (st st1 st2 : TLState) (ev : EventInput)
    (evs : List EventInput) (tid1 tid2 : Option ID) (now1 now2 : Int) (gid : ID)
    (gids : Nat → ID) (e : EventData) (out : List EventData)
    (h1 : addEvent st ev tid1 now1 gid = .ok (some e, st1))
    (h2 : addEvents st evs tid2 now2 gids = .ok (some out, st2)) :
    eventTypeSpec ev e ∧ List.Forall₂ eventTypeSpec evs out := by
  constructor
  · rw [addEvent] at h1
    cases hfind : st.timelines.find? (fun t => some t.id == tid1) with
    | none => rw [hfind] at h1; cases h1
    | some timeline =>
      rw [hfind] at h1
      dsimp only at h1
      cases hor : tid1.orElse (fun _ => ev.timelineId) with
      | none => rw [hor] at h1; cases h1
      | some tlid =>
        rw [hor] at h1
        dsimp only at h1
        by_cases hf : idFalsy tlid = true
        · rw [if_pos hf] at h1; cases h1
        · rw [if_neg hf] at h1
          simp only [Except.ok.injEq, Prod.mk.injEq, Option.some.injEq] at h1
          rw [← h1.1]
          exact mkEventData_eventTypeSpec ev tlid timeline now1 gid
  · rw [addEvents] at h2
    by_cases hemp : evs.isEmpty
    · rw [if_pos hemp] at h2; cases h2
    · rw [if_neg hemp] at h2
      cases hgo : addEventsGo st tid2 now2 gids evs 0 with
      | error msg => rw [hgo] at h2; cases h2
      | ok added =>
        rw [hgo] at h2
        dsimp only at h2
        simp only [Except.ok.injEq, Prod.mk.injEq, Option.some.injEq] at h2
        rw [← h2.1]
        exact addEventsGo_forall₂ st tid2 now2 gids evs 0 added hgo

/-- C5 witness: a point event (no end time) and a range event in a batch,
against a concrete one-timeline state. -/
theorem claim_C5_witness :
    eventTypeSpec ⟨none, none, some "E", none, some 100, none, none, none⟩
      ⟨ID.str "g", ID.num 1, "E", "", 100, 100, "#fff", EvType.point, none⟩ ∧
    List.Forall₂ eventTypeSpec
      [⟨none, none, some "E", none, some 100, some 200, none, none⟩]
      [⟨ID.str "h", ID.num 1, "E", "", 100, 200, "#fff", EvType.range, none⟩] :=
  claim_C5_point_range_classification
    ⟨[⟨ID.num 1, "a", "#fff"⟩], [], ⟨0, 1000⟩⟩
    ⟨[⟨ID.num 1, "a", "#fff"⟩], [⟨ID.str "g", ID.num 1, "E", "", 100, 100, "#fff",
      EvType.point, none⟩], ⟨0, 1000⟩⟩
    ⟨[⟨ID.num 1, "a", "#fff"⟩], [⟨ID.str "h", ID.num 1, "E", "", 100, 200, "#fff",
      EvType.range, none⟩], ⟨0, 1000⟩⟩
    ⟨none, none, some "E", none, some 100, none, none, none⟩
    [⟨none, none, some "E", none, some 100, some 200, none, none⟩]
    (some (ID.num 1)) (some (ID.num 1)) 0 0 (ID.str "g") (fun _ => ID.str "h")
    ⟨ID.str "g", ID.num 1, "E", "", 100, 100, "#fff", EvType.point, none⟩
    [⟨ID.str "h", ID.num 1, "E", "", 100, 200, "#fff", EvType.range, none⟩]
    (by rfl) (by rfl)

/-- C6: N `addTimeline` calls append N entries in call order (leaving
events and range untouched), and `removeTimeline id` keeps exactly the
timelines with a different id and the events of other timelines, in their
original order (the results are sublists of the originals). -/
theorem claim_C6_add_remove_timelines (st : TLState)
    (cfgs : List (String × String × Option ID × ID)) (id : ID) :
    (addTimelineSeq st cfgs).timelines = st.timelines ++ cfgs.map mkTimelineOf ∧
    (addTimelineSeq st cfgs).timelines.length = st.timelines.length + cfgs.length ∧
    (addTimelineSeq st cfgs).events = st.events ∧
    (∀ t, t ∈ (removeTimeline st id).timelines ↔ t ∈ st.timelines ∧ t.id ≠ id) ∧
    (∀ e, e ∈ (removeTimeline st id).events ↔ e ∈ st.events ∧ e.timelineId ≠ id) ∧
    (removeTimeline st id).timelines.Sublist st.timelines ∧
    (removeTimeline st id).events.Sublist st.events := by
  obtain ⟨h1, h2, _⟩ := addTimelineSeq_timelines cfgs st
  refine ⟨h1, ?_, h2, ?_, ?_, ?_, ?_⟩
  · rw [h1]; simp
  · intro t
    rw [removeTimeline]
    simp only [List.mem_filter, bne_iff_ne]
  · intro e
    rw [removeTimeline]
    simp only [List.mem_filter, bne_iff_ne]
  · exact List.filter_sublist _
  · exact List.filter_sublist _

/-- C8: construction throws exactly when the resolved width (the width
option when positive, else the container's client width) is non-positive,
for every height option and client height — there is no corresponding
check on the resolved height. -/
theorem claim_C8_width_fail_fast (optW optH clientW clientH : ℚ) :
    (∃ msg, constructorDims optW optH clientW clientH = .error msg) ↔
      (if 0 < optW then optW else clientW) ≤ 0 := by
  unfold constructorDims resolveDim
  by_cases h1 : optW ≤ 0 ∧ 0 < clientW
  · rw [if_pos h1]
    by_cases h2 : clientW ≤ 0
    · exact absurd h1.2 (by linarith)
    · rw [if_neg h2]
      constructor
      · rintro ⟨msg, hmsg⟩; cases hmsg
      · intro hc
        rw [if_neg (by linarith [h1.1])] at hc
        exact absurd h1.2 (by linarith)
  · rw [if_neg h1]
    by_cases h2 : optW ≤ 0
    · have hcw : ¬0 < clientW := fun hc => h1 ⟨h2, hc⟩
      rw [if_pos h2]
      constructor
      · intro _
        rw [if_neg (by linarith)]
        linarith
      · intro _
        exact ⟨_, rfl⟩
    · rw [if_neg h2]
      constructor
      · rintro ⟨msg, hmsg⟩; cases hmsg
      · intro hc
        rw [if_pos (by linarith)] at hc
        exact absurd hc h2

/-- C10 counterexample: the claim asserts the throw of
`"The timelineId is not specified."` in `addEvent` is unreachable; with a
stored timeline whose id is the (falsy) number 0 and that same id passed as
the parameter, the lookup succeeds and the call then throws exactly that
error. -/
theorem claim_C10_counterexample :
    addEvent ⟨[⟨ID.num 0, "tl", "#000"⟩], [], ⟨0, 1000⟩⟩
      ⟨none, none, some "E", none, some 100, none, none, none⟩
      (some (ID.num 0)) 0 (ID.str "gen")
      = .error "The timelineId is not specified." := by
  rfl

/-- C10 amended: with an undefined timeline-id parameter `addEvent` always
returns `null` (the lookup uses only the parameter, so a configuration's
own `timelineId` never matters), and the nullish fallback
`timelineId ?? event.timelineId` never substitutes — any call that passes
the lookup stores the parameter itself as the event's timeline id. The
throw, however, is reachable: it fires precisely when the matched id is
falsy (the number 0 or the empty string). -/
theorem claim_C10_param_only_lookup (st : TLState) (ev : EventInput) (now : Int) (gid : ID) :
    addEvent st ev none now gid = .ok (none, st) ∧
    (∀ tid t, t ∈ st.timelines → t.id = tid →
      ((idFalsy tid = true →
        addEvent st ev (some tid) now gid = .error "The timelineId is not specified.") ∧
       (idFalsy tid = false →
        ∃ e st', addEvent st ev (some tid) now gid = .ok (some e, st') ∧
          e.timelineId = tid))) := by
  constructor
  · rw [addEvent]
    have : st.timelines.find? (fun t => some t.id == none) = none := by
      rw [List.find?_eq_none]; intro t _; simp
    rw [this]
  · intro tid t ht htid
    have hsome : (st.timelines.find? (fun u => some u.id == some tid)).isSome = true := by
      rw [List.find?_isSome]
      exact ⟨t, ht, by simp [htid]⟩
    obtain ⟨tl, htl⟩ := Option.isSome_iff_exists.mp hsome
    have horelse : ∀ f : Unit → Option ID, (some tid).orElse f = some tid := fun _ => rfl
    constructor
    · intro hf
      rw [addEvent, htl]
      dsimp only
      rw [horelse]
      dsimp only
      rw [if_pos hf]
    · intro hf
      rw [addEvent, htl]
      dsimp only
      rw [horelse]
      dsimp only
      rw [if_neg (by rw [hf]; simp)]
      exact ⟨_, _, rfl, rfl⟩

/-- C10 witness: the amended statement at the counterexample state,
covering both the falsy id 0 (throw) and a truthy id 1 (success). -/
theorem claim_C10_witness :
    addEvent ⟨[⟨ID.num 0, "tl", "#000"⟩, ⟨ID.num 1, "u", "#111"⟩], [], ⟨0, 1000⟩⟩
      ⟨none, some (ID.num 1), some "E", none, some 100, none, none, none⟩
      none 0 (ID.str "gen") =
      .ok (none, ⟨[⟨ID.num 0, "tl", "#000"⟩, ⟨ID.num 1, "u", "#111"⟩], [], ⟨0, 1000⟩⟩) ∧
    (idFalsy (ID.num 0) = true →
      addEvent ⟨[⟨ID.num 0, "tl", "#000"⟩, ⟨ID.num 1, "u", "#111"⟩], [], ⟨0, 1000⟩⟩
        ⟨none, some (ID.num 1), some "E", none, some 100, none, none, none⟩
        (some (ID.num 0)) 0 (ID.str "gen") = .error "The timelineId is not specified.") :=
  ⟨(claim_C10_param_only_lookup _ _ _ _).1,
   ((claim_C10_param_only_lookup _
      ⟨none, some (ID.num 1), some "E", none, some 100, none, none, none⟩ 0 (ID.str "gen")).2
     (ID.num 0) ⟨ID.num 0, "tl", "#000"⟩ (by decide) (by decide)).1⟩

end Claims
section ClaimC7

/-- A concrete instance state for C7. -/
def c7State : StateJ :=
  ⟨[tlJ ⟨ID.num 1, "a", "#fff"⟩], [], timeRangeJ ⟨0, 1000⟩⟩

/-- A payload whose `timelines` spread succeeds but whose `events` spread
throws (`null` is not iterable). -/
def c7Payload : JValue :=
  .jobj [("timelines", .jarr []), ("events", .jnull), ("timeRange", timeRangeJ ⟨0, 1⟩)]

/-- C7 counterexample: the claim fails twice on the code. A string that is
not valid JSON makes `importDataString` propagate the parse exception
instead of returning `false` (the parse runs outside the try/catch), and a
payload failing mid-import returns `false` with the instance's `timelines`
already overwritten (here: cleared), not unchanged. -/
theorem claim_C7_counterexample :
    importDataString c7State (.error "SyntaxError: Unexpected token") =
      .error "SyntaxError: Unexpected token" ∧
    (importData c7State c7Payload).1 = false ∧
    (importData c7State c7Payload).2.timelines = [] ∧
    c7State.timelines ≠ [] := by
  refine ⟨rfl, rfl, rfl, ?_⟩
  simp [c7State]

/-- C7 amended: `importData` catches any failure inside the try block and
returns `false` instead of propagating, but the instance is not restored:
each assignment made before the failing step keeps its new value, and when
the failure is the render's data-join key throwing (inside the `resize()`
call at the end of the block) all three fields are already overwritten even
though the call reports `false`. The import succeeds exactly when both
array spreads succeed and every new timeline and event passes the join key.
`importDataString`, by contrast, applies the JSON parse outside the catch,
so a parse failure propagates as an exception. -/
theorem claim_C7_import_failure_modes (st : StateJ) (e : String) (v : JValue) :
    importDataString st (.error e) = .error e ∧
    importDataString st (.ok v) = .ok (importData st (parseTree DateFormat.iso v)) ∧
    importData st .jnull = (false, st) ∧
    (∀ fs msg, listSpread (fs.lookup "timelines") = .error msg →
      importData st (.jobj fs) = (false, st)) ∧
    (∀ fs tls msg, listSpread (fs.lookup "timelines") = .ok tls →
      listSpread (fs.lookup "events") = .error msg →
      importData st (.jobj fs) = (false, { st with timelines := tls })) ∧
    (∀ fs tls evs, listSpread (fs.lookup "timelines") = .ok tls →
      listSpread (fs.lookup "events") = .ok evs →
      (tls.all joinKeyOk && evs.all joinKeyOk) = true →
      importData st (.jobj fs) = (true, ⟨tls, evs, objSpread (fs.lookup "timeRange")⟩)) ∧
    (∀ fs tls evs, listSpread (fs.lookup "timelines") = .ok tls →
      listSpread (fs.lookup "events") = .ok evs →
      (tls.all joinKeyOk && evs.all joinKeyOk) = false →
      importData st (.jobj fs) = (false, ⟨tls, evs, objSpread (fs.lookup "timeRange")⟩)) := by
  refine ⟨rfl, rfl, rfl, ?_, ?_, ?_, ?_⟩
  · intro fs msg h
    rw [importData]
    dsimp only [propAccess]
    rw [h]
  · intro fs tls msg h1 h2
    rw [importData]
    dsimp only [propAccess]
    rw [h1]
    dsimp only
    rw [h2]
  · intro fs tls evs h1 h2 hk
    rw [importData]
    dsimp only [propAccess]
    rw [h1]
    dsimp only
    rw [h2]
    dsimp only
    rw [hk]
  · intro fs tls evs h1 h2 hk
    rw [importData]
    dsimp only [propAccess]
    rw [h1]
    dsimp only
    rw [h2]
    dsimp only
    rw [hk]

/-- C7 witness: the amended behaviour at concrete inputs — a propagated
parse error, the partial overwrite on the counterexample payload, and a
payload whose spreads succeed but whose `null` timeline element makes the
render's join key throw, leaving every field overwritten under a `false`
return. -/
theorem claim_C7_witness :
    importDataString c7State (.error "SyntaxError") = .error "SyntaxError" ∧
    importData c7State c7Payload = (false, { c7State with timelines := [] }) ∧
    importData c7State (.jobj [("timelines", .jarr [.jnull]), ("events", .jarr []),
      ("timeRange", .jobj [])]) = (false, ⟨[.jnull], [], .jobj []⟩) :=
  ⟨(claim_C7_import_failure_modes c7State "SyntaxError" .jnull).1,
   (claim_C7_import_failure_modes c7State "SyntaxError" .jnull).2.2.2.2.1
     [("timelines", .jarr []), ("events", .jnull), ("timeRange", timeRangeJ ⟨0, 1⟩)]
     [] "TypeError: not iterable" (by rfl) (by rfl),
   (claim_C7_import_failure_modes c7State "SyntaxError" .jnull).2.2.2.2.2.2
     [("timelines", .jarr [.jnull]), ("events", .jarr []), ("timeRange", .jobj [])]
     [.jnull] [] (by rfl) (by rfl) (by rfl)⟩

end ClaimC7

section ClaimC9

/-- C9: serializing through `exportDataString` reassigns, in place, every
`Date`-valued `startTime`/`endTime` field of the instance's own event
objects to the plain tagged record (the serializer's replacer mutates its
argument, and `exportData`'s array spread is shallow); afterwards no stored
event holds a `Date` in those fields, while `timelines` and the instance's
`timeRange` are untouched. -/
theorem claim_C9_export_mutates_events (fmt : DateFormat) (st : HeapState) :
    (exportDataStringHeap fmt st).2.timelines = st.timelines ∧
    (exportDataStringHeap fmt st).2.timeRange = st.timeRange ∧
    (∀ e, e ∈ st.events → replacerMutate fmt e ∈ (exportDataStringHeap fmt st).2.events) ∧
    (∀ e', e' ∈ (exportDataStringHeap fmt st).2.events →
      e'.startTime.isDate = false ∧ e'.endTime.isDate = false) ∧
    (∀ e t, e ∈ st.events → e.startTime = .dateV t →
      (replacerMutate fmt e).startTime = .plainV (tagDate fmt t)) ∧
    (∀ e t, e ∈ st.events → e.endTime = .dateV t →
      (replacerMutate fmt e).endTime = .plainV (tagDate fmt t)) := by
  refine ⟨rfl, rfl, ?_, ?_, ?_, ?_⟩
  · intro e he
    simp only [exportDataStringHeap, List.mem_map]
    exact ⟨e, he, rfl⟩
  · intro e' he'
    simp only [exportDataStringHeap, List.mem_map] at he'
    obtain ⟨e, _, rfl⟩ := he'
    constructor
    · cases h : e.startTime <;> simp [replacerMutate, mutateSlot, h, DateSlot.isDate]
    · cases h : e.endTime <;> simp [replacerMutate, mutateSlot, h, DateSlot.isDate]
  · intro e t _ h
    simp [replacerMutate, mutateSlot, h]
  · intro e t _ h
    simp [replacerMutate, mutateSlot, h]

/-- A concrete instance event and state for the C9 witness. -/
def c9Event : HeapEvent :=
  ⟨ID.num 1, ID.num 1, "E", "", .dateV 100, .dateV 200, "#fff", .range, none⟩

def c9State : HeapState := ⟨[⟨ID.num 1, "a", "#fff"⟩], [c9Event], ⟨0, 1000⟩⟩

/-- C9 witness: the mutation at a concrete state. -/
theorem claim_C9_witness :
    (replacerMutate DateFormat.iso c9Event).startTime
      = DateSlot.plainV (tagDate DateFormat.iso 100) ∧
    replacerMutate DateFormat.iso c9Event
      ∈ (exportDataStringHeap DateFormat.iso c9State).2.events :=
  ⟨(claim_C9_export_mutates_events DateFormat.iso c9State).2.2.2.2.1 c9Event 100
     (by simp [c9State]) rfl,
   (claim_C9_export_mutates_events DateFormat.iso c9State).2.2.1 c9Event
     (by simp [c9State])⟩

end ClaimC9

section ClaimC4Helpers

/-- The events of one stage group as the claim describes them: the events
whose stage id equals `sid`, in order. -/
def stageGroupOf (sid : ID) (events : List EventData) : List EventData :=
  events.filter (fun e =>
    match e.stage with
    | some st => st.id == sid
    | none => false)

theorem lookup_cons_eq (sid k : ID) (v : List EventData)
    (rest : List (ID × List EventData)) :
    List.lookup sid ((k, v) :: rest) = if sid = k then some v else List.lookup sid rest := by
  rw [List.lookup]
  by_cases h : sid = k
  · simp [h]
  · have hb : (sid == k) = false := by simp [h]
    simp [hb, h]

theorem addToGroups_lookup (k : ID) (e : EventData) (sid : ID) :
    ∀ gs : List (ID × List EventData),
      (addToGroups gs k e).lookup sid =
        if sid = k then some (((gs.lookup sid).getD []) ++ [e]) else gs.lookup sid := by
  intro gs
  induction gs with
  | nil =>
    rw [addToGroups, lookup_cons_eq]
    by_cases h : sid = k
    · simp [h, List.lookup]
    · simp [h, List.lookup]
  | cons g rest ih =>
    obtain ⟨k2, es⟩ := g
    rw [addToGroups]
    by_cases hk : k2 = k
    · rw [if_pos hk]
      subst hk
      rw [lookup_cons_eq, lookup_cons_eq]
      by_cases hs : sid = k2
      · rw [if_pos hs, if_pos hs, if_pos hs]
        simp
      · rw [if_neg hs, if_neg hs, if_neg hs]
    · rw [if_neg hk]
      rw [lookup_cons_eq, lookup_cons_eq]
      by_cases hs : sid = k2
      · have hsk : ¬ sid = k := fun h => hk (hs ▸ h)
        rw [if_pos hs, if_pos hs, if_neg hsk]
      · rw [if_neg hs, if_neg hs, ih]

theorem stageGroups_foldl_lookup (evs : List EventData) :
    ∀ (acc : List (ID × List EventData)) (sid : ID),
      (evs.foldl (fun gs e =>
        match e.stage with
        | some st => addToGroups gs st.id e
        | none => gs) acc).lookup sid =
      (match acc.lookup sid with
       | some es => some (es ++ stageGroupOf sid evs)
       | none =>
         if stageGroupOf sid evs = [] then none else some (stageGroupOf sid evs)) := by
  induction evs with
  | nil =>
    intro acc sid
    cases h : acc.lookup sid <;> simp [stageGroupOf, h]
  | cons e rest ih =>
    intro acc sid
    simp only [List.foldl_cons]
    cases hst : e.stage with
    | none =>
      rw [ih]
      have hg : stageGroupOf sid (e :: rest) = stageGroupOf sid rest := by
        simp [stageGroupOf, List.filter_cons, hst]
      rw [hg]
    | some st =>
      rw [ih (addToGroups acc st.id e) sid]
      rw [addToGroups_lookup]
      by_cases hid : sid = st.id
      · have hg : stageGroupOf sid (e :: rest) = e :: stageGroupOf sid rest := by
          simp [stageGroupOf, List.filter_cons, hst, hid]
        rw [if_pos hid, hg]
        cases h : acc.lookup sid with
        | none => simp
        | some es => simp
      · have hg : stageGroupOf sid (e :: rest) = stageGroupOf sid rest := by
          have : ¬(st.id = sid) := fun h => hid h.symm
          simp [stageGroupOf, List.filter_cons, hst, this]
        rw [if_neg hid, hg]

theorem stageGroups_lookup (evs : List EventData) (sid : ID) :
    (stageGroups evs).lookup sid =
      if stageGroupOf sid evs = [] then none else some (stageGroupOf sid evs) := by
  rw [stageGroups, stageGroups_foldl_lookup]
  simp [List.lookup]

theorem addToGroups_keys (k : ID) (e : EventData) :
    ∀ gs : List (ID × List EventData),
      (addToGroups gs k e).map Prod.fst =
        if k ∈ gs.map Prod.fst then gs.map Prod.fst else gs.map Prod.fst ++ [k] := by
  intro gs
  induction gs with
  | nil => simp [addToGroups]
  | cons g rest ih =>
    obtain ⟨k', es⟩ := g
    rw [addToGroups]
    by_cases hk : k' = k
    · subst hk
      simp
    · rw [if_neg hk]
      simp only [List.map_cons, List.mem_cons]
      rw [ih]
      have : ¬(k = k') := fun h => hk h.symm
      by_cases hmem : k ∈ rest.map Prod.fst
      · simp [this, hmem]
      · simp [this, hmem]

theorem stageGroups_keys_nodup (evs : List EventData) :
    ∀ acc : List (ID × List EventData), (acc.map Prod.fst).Nodup →
      ((evs.foldl (fun gs e =>
        match e.stage with
        | some st => addToGroups gs st.id e
        | none => gs) acc).map Prod.fst).Nodup := by
  induction evs with
  | nil => intro acc h; simpa using h
  | cons e rest ih =>
    intro acc h
    simp only [List.foldl_cons]
    cases hst : e.stage with
    | none => exact ih acc h
    | some st =>
      apply ih
      rw [addToGroups_keys]
      by_cases hmem : st.id ∈ acc.map Prod.fst
      · rw [if_pos hmem]; exact h
      · rw [if_neg hmem]
        rw [List.nodup_append]
        refine ⟨h, List.nodup_singleton _, ?_⟩
        intro a ha hb
        simp only [List.mem_singleton] at hb
        subst hb
        exact hmem ha

theorem mem_iff_lookup_of_keys_nodup :
    ∀ (gs : List (ID × List EventData)), ((gs.map Prod.fst).Nodup) →
      ∀ (sid : ID) (es : List EventData), ((sid, es) ∈ gs ↔ gs.lookup sid = some es) := by
  intro gs
  induction gs with
  | nil => intro _ sid es; simp [List.lookup]
  | cons g rest ih =>
    intro hnd sid es
    obtain ⟨k, v⟩ := g
    simp only [List.map_cons, List.nodup_cons] at hnd
    by_cases hs : sid = k
    · subst hs
      simp only [List.lookup, beq_self_eq_true, if_true, List.mem_cons]
      constructor
      · rintro (h | h)
        · rw [Prod.mk.injEq] at h
          rw [h.2]
        · exfalso
          exact hnd.1 (List.mem_map.mpr ⟨(sid, es), h, rfl⟩)
      · intro h
        left
        rw [Option.some_inj] at h
        rw [h]
    · have hb : (sid == k) = false := by simp [hs]
      simp only [List.lookup, hb, List.mem_cons]
      rw [← ih hnd.2 sid es]
      constructor
      · rintro (h | h)
        · rw [Prod.mk.injEq] at h
          exact absurd h.1 hs
        · exact h
      · intro h
        right
        exact h

theorem buildSegs_length (ty : PathType) :
    ∀ pts : List StagePoint, (buildSegs ty pts).length = pts.length - 1 := by
  intro pts
  induction pts with
  | nil => simp [buildSegs]
  | cons p rest ih =>
    cases rest with
    | nil => simp [buildSegs]
    | cons q rest' =>
      rw [buildSegs]
      simp only [List.length_cons]
      rw [ih]
      simp

end ClaimC4Helpers

section ClaimC4

/-- C4: with stage lines visible, a connector path is rendered for a stage
id exactly when its group (the events sharing that stage id) has at least
two members, and a rendered path consists of its `M` start point plus one
segment per adjacent pair of the group's events sorted by stage index — so
its anchor-point count (1 + segment count) equals the group's size. -/
theorem claim_C4_stage_connector_iff (opts : RenderOpts) (timelines : List TimelineData)
    (events : List EventData) (xScale : Int → ℚ) (sid : ID) :
    ((∃ p, (sid, p) ∈ renderStageLines true opts timelines events xScale) ↔
      2 ≤ (stageGroupOf sid events).length) ∧
    (∀ p, (sid, p) ∈ renderStageLines true opts timelines events xScale →
      1 + p.segs.length = (stageGroupOf sid events).length) := by
  have hnodup : ((stageGroups events).map Prod.fst).Nodup :=
    stageGroups_keys_nodup events [] (by simp)
  have hmem : ∀ es, ((sid, es) ∈ stageGroups events ↔ (stageGroups events).lookup sid = some es) :=
    fun es => mem_iff_lookup_of_keys_nodup (stageGroups events) hnodup sid es
  have hrw : renderStageLines true opts timelines events xScale =
      (stageGroups events).filterMap (fun g =>
        let sorted := sortByStageIndex g.2
        if sorted.length < 2 then none
        else some (g.1, buildStagePath opts.pathType (sorted.map (mkStagePoint opts timelines xScale)))) := by
    rw [renderStageLines]
    simp
  constructor
  · constructor
    · rintro ⟨p, hp⟩
      rw [hrw, List.mem_filterMap] at hp
      obtain ⟨⟨gid, ges⟩, hg, hf⟩ := hp
      dsimp only at hf
      by_cases hlen : (sortByStageIndex ges).length < 2
      · rw [if_pos hlen] at hf; cases hf
      · rw [if_neg hlen] at hf
        rw [Option.some_inj, Prod.mk.injEq] at hf
        obtain ⟨hgid, _⟩ := hf
        subst hgid
        have hes : ges = stageGroupOf gid events := by
          have := (hmem ges).mp hg
          rw [stageGroups_lookup] at this
          by_cases hempty : stageGroupOf gid events = []
          · rw [if_pos hempty] at this; cases this
          · rw [if_neg hempty] at this
            rw [Option.some_inj] at this
            rw [this]
        rw [← hes]
        have hsl2 : (sortByStageIndex ges).length = ges.length := by
          rw [sortByStageIndex, List.length_mergeSort]
        rw [hsl2] at hlen
        omega
    · intro hlen
      have hne : stageGroupOf sid events ≠ [] := by
        intro h
        rw [h] at hlen
        simp at hlen
      have hlk : (stageGroups events).lookup sid = some (stageGroupOf sid events) := by
        rw [stageGroups_lookup, if_neg hne]
      have hmem2 : (sid, stageGroupOf sid events) ∈ stageGroups events := (hmem _).mpr hlk
      refine ⟨buildStagePath opts.pathType
        ((sortByStageIndex (stageGroupOf sid events)).map (mkStagePoint opts timelines xScale)), ?_⟩
      rw [hrw, List.mem_filterMap]
      refine ⟨(sid, stageGroupOf sid events), hmem2, ?_⟩
      dsimp only
      rw [if_neg ?_]
      rw [sortByStageIndex, List.length_mergeSort]
      omega
  · intro p hp
    rw [hrw, List.mem_filterMap] at hp
    obtain ⟨⟨gid, ges⟩, hg, hf⟩ := hp
    dsimp only at hf
    by_cases hlen : (sortByStageIndex ges).length < 2
    · rw [if_pos hlen] at hf; cases hf
    · rw [if_neg hlen] at hf
      rw [Option.some_inj, Prod.mk.injEq] at hf
      obtain ⟨hgid, hpath⟩ := hf
      subst hgid
      have hes : ges = stageGroupOf gid events := by
        have := (hmem ges).mp hg
        rw [stageGroups_lookup] at this
        by_cases hempty : stageGroupOf gid events = []
        · rw [if_pos hempty] at this; cases this
        · rw [if_neg hempty] at this
          rw [Option.some_inj] at this
          rw [this]
      have hsl : (sortByStageIndex ges).length = ges.length := by
        rw [sortByStageIndex, List.length_mergeSort]
      cases hpts : (sortByStageIndex ges).map (mkStagePoint opts timelines xScale) with
      | nil =>
        exfalso
        have hcon := congrArg List.length hpts
        rw [List.length_map, hsl] at hcon
        simp only [List.length_nil] at hcon
        rw [hsl] at hlen
        exact hlen (by omega)
      | cons p0 rest =>
        have hb : (buildStagePath opts.pathType (p0 :: rest)).segs =
            buildSegs opts.pathType (p0 :: rest) := rfl
        rw [← hpath, hpts, hb, buildSegs_length opts.pathType]
        have hplen : (p0 :: rest).length = ges.length := by
          rw [← hpts, List.length_map, hsl]
        rw [hplen, ← hes]
        rw [hsl] at hlen
        omega

/-- C4 witness: a two-event stage group on one timeline renders exactly one
connector whose anchor count is 2; a third, unstaged event changes
nothing. -/
theorem claim_C4_witness :
    ((∃ p, (ID.str "s1", p) ∈ renderStageLines true ⟨20, 60, 20, PathType.straight⟩
        [⟨ID.num 1, "a", "#fff"⟩]
        [⟨ID.num 10, ID.num 1, "E1", "", 0, 0, "#fff", EvType.point, some ⟨ID.str "s1", 0⟩⟩,
         ⟨ID.num 11, ID.num 1, "E2", "", 5, 9, "#fff", EvType.range, some ⟨ID.str "s1", 1⟩⟩,
         ⟨ID.num 12, ID.num 1, "E3", "", 7, 7, "#fff", EvType.point, none⟩]
        (fun t => (t : ℚ))) ↔
      2 ≤ (stageGroupOf (ID.str "s1")
        [⟨ID.num 10, ID.num 1, "E1", "", 0, 0, "#fff", EvType.point, some ⟨ID.str "s1", 0⟩⟩,
         ⟨ID.num 11, ID.num 1, "E2", "", 5, 9, "#fff", EvType.range, some ⟨ID.str "s1", 1⟩⟩,
         ⟨ID.num 12, ID.num 1, "E3", "", 7, 7, "#fff", EvType.point, none⟩]).length) :=
  (claim_C4_stage_connector_iff ⟨20, 60, 20, PathType.straight⟩ _ _ _ _).1

end ClaimC4
section ClaimC3Helpers

theorem stringifyFields_eq_map (fmt : DateFormat) :
    ∀ fs : List (String × JValue),
      stringifyFields fmt fs = fs.map (fun p => (p.1, stringifyEntry fmt p.2)) := by
  intro fs
  induction fs with
  | nil => simp [stringifyFields]
  | cons p rest ih =>
    obtain ⟨k, v⟩ := p
    simp [stringifyFields, ih]

theorem stringifyElems_eq_map (fmt : DateFormat) :
    ∀ xs : List JValue, stringifyElems fmt xs = xs.map (stringifyEntry fmt) := by
  intro xs
  induction xs with
  | nil => simp [stringifyElems]
  | cons v rest ih => simp [stringifyElems, ih]

theorem parseFields_eq_map (fmt : DateFormat) :
    ∀ fs : List (String × JValue),
      parseFields fmt fs = fs.map (fun p => (p.1, parseTree fmt p.2)) := by
  intro fs
  induction fs with
  | nil => simp [parseFields]
  | cons p rest ih =>
    obtain ⟨k, v⟩ := p
    simp [parseFields, ih]

theorem parseElems_eq_map (fmt : DateFormat) :
    ∀ xs : List JValue, parseElems fmt xs = xs.map (parseTree fmt) := by
  intro xs
  induction xs with
  | nil => simp [parseElems]
  | cons v rest ih => simp [parseElems, ih]

theorem stringify_idJ (fmt : DateFormat) (i : ID) :
    stringifyEntry fmt (idJ i) = idJ i := by
  cases i <;> simp [idJ, stringifyEntry, stringifyTree]

theorem parse_idJ (fmt : DateFormat) (i : ID) : parseTree fmt (idJ i) = idJ i := by
  cases i <;> simp [idJ, parseTree]

theorem stringify_evTypeJ (fmt : DateFormat) (ty : EvType) :
    stringifyEntry fmt (evTypeJ ty) = evTypeJ ty := by
  cases ty <;> simp [evTypeJ, stringifyEntry, stringifyTree]

theorem parse_evTypeJ (fmt : DateFormat) (ty : EvType) :
    parseTree fmt (evTypeJ ty) = evTypeJ ty := by
  cases ty <;> simp [evTypeJ, parseTree]

theorem lookup_type_pair (v1 v2 : JValue) :
    List.lookup "$type" [("id", v1), ("index", v2)] = none := rfl

theorem lookup_type_triple (v1 v2 v3 : JValue) :
    List.lookup "$type" [("id", v1), ("name", v2), ("color", v3)] = none := rfl

theorem lookup_type_tr (v1 v2 : JValue) :
    List.lookup "$type" [("start", v1), ("end", v2)] = none := rfl

theorem lookup_type_ev (v1 v2 v3 v4 v5 v6 v7 v8 : JValue) :
    List.lookup "$type" [("id", v1), ("timelineId", v2), ("title", v3),
      ("description", v4), ("startTime", v5), ("endTime", v6), ("color", v7),
      ("type", v8)] = none := rfl

theorem lookup_type_ev_stage (v1 v2 v3 v4 v5 v6 v7 v8 v9 : JValue) :
    List.lookup "$type" [("id", v1), ("timelineId", v2), ("title", v3),
      ("description", v4), ("startTime", v5), ("endTime", v6), ("color", v7),
      ("type", v8), ("stage", v9)] = none := rfl

theorem lookup_type_top (v1 v2 v3 : JValue) :
    List.lookup "$type" [("timelines", v1), ("events", v2), ("timeRange", v3)] = none := rfl

theorem joinKeyOk_tlJ (t : TimelineData) : joinKeyOk (tlJ t) = true := by
  cases h : t.id <;> simp [tlJ, h, idJ, joinKeyOk, List.lookup]

theorem joinKeyOk_evJ (e : EventData) : joinKeyOk (evJ e) = true := by
  cases h : e.id <;> simp [evJ, h, idJ, joinKeyOk, List.lookup]

theorem roundtrip_tlJ (fmt : DateFormat) (t : TimelineData) :
    parseTree fmt (stringifyEntry fmt (tlJ t)) = tlJ t := by
  have hs : stringifyEntry fmt (tlJ t) = tlJ t := by
    simp [tlJ, stringifyEntry, stringifyTree, stringifyFields, stringify_idJ]
  rw [hs]
  simp [tlJ, parseTree, parseFields, parse_idJ, reviveNode, lookup_type_triple]

theorem roundtrip_stageJ (fmt : DateFormat) (s : EventStage) :
    parseTree fmt (stringifyEntry fmt (stageJ s)) = stageJ s := by
  have hs : stringifyEntry fmt (stageJ s) = stageJ s := by
    simp [stageJ, stringifyEntry, stringifyTree, stringifyFields, stringify_idJ]
  rw [hs]
  simp [stageJ, parseTree, parseFields, parse_idJ, reviveNode, lookup_type_pair]

theorem stringify_stageJ (fmt : DateFormat) (s : EventStage) :
    stringifyEntry fmt (stageJ s) = stageJ s := by
  simp [stageJ, stringifyEntry, stringifyTree, stringifyFields, stringify_idJ]

theorem parse_stageJ (fmt : DateFormat) (s : EventStage) :
    parseTree fmt (stageJ s) = stageJ s := by
  simp [stageJ, parseTree, parseFields, parse_idJ, reviveNode, lookup_type_pair]

theorem roundtrip_evJ (fmt : DateFormat) (e : EventData)
    (h1 : dateInRange e.startTime) (h2 : dateInRange e.endTime) :
    parseTree fmt (stringifyEntry fmt (evJ e)) = evJ e := by
  cases hst : e.stage with
  | none =>
    have hs : stringifyEntry fmt (evJ e) =
        .jobj [("id", idJ e.id), ("timelineId", idJ e.timelineId),
          ("title", .jstr e.title), ("description", .jstr e.description),
          ("startTime", tagDate fmt e.startTime), ("endTime", tagDate fmt e.endTime),
          ("color", .jstr e.color), ("type", evTypeJ e.type)] := by
      simp [evJ, hst, stringifyEntry, stringifyTree, stringifyFields, stringify_idJ,
        stringify_evTypeJ]
    rw [hs]
    simp [parseTree, parseFields, parse_idJ, parse_evTypeJ,
      parseTree_tagDate fmt e.startTime h1, parseTree_tagDate fmt e.endTime h2,
      reviveNode, lookup_type_ev, evJ, hst]
  | some s =>
    have hs : stringifyEntry fmt (evJ e) =
        .jobj [("id", idJ e.id), ("timelineId", idJ e.timelineId),
          ("title", .jstr e.title), ("description", .jstr e.description),
          ("startTime", tagDate fmt e.startTime), ("endTime", tagDate fmt e.endTime),
          ("color", .jstr e.color), ("type", evTypeJ e.type), ("stage", stageJ s)] := by
      simp [evJ, hst, stringifyEntry, stringifyTree, stringifyFields, stringify_idJ,
        stringify_evTypeJ, stringify_stageJ]
    rw [hs]
    simp [parseTree, parseFields, parse_idJ, parse_evTypeJ, stageJ,
      parseTree_tagDate fmt e.startTime h1, parseTree_tagDate fmt e.endTime h2,
      reviveNode, lookup_type_ev_stage, lookup_type_pair, evJ, hst]

theorem roundtrip_trJ (fmt : DateFormat) (tr : TimeRange)
    (h1 : dateInRange tr.start) (h2 : dateInRange tr.«end») :
    parseTree fmt (stringifyEntry fmt (timeRangeJ tr)) = timeRangeJ tr := by
  have hs : stringifyEntry fmt (timeRangeJ tr) =
      .jobj [("start", tagDate fmt tr.start), ("end", tagDate fmt tr.«end»)] := by
    simp [timeRangeJ, stringifyEntry, stringifyTree, stringifyFields]
  rw [hs]
  simp [parseTree, parseFields, reviveNode, lookup_type_tr,
    parseTree_tagDate fmt tr.start h1, parseTree_tagDate fmt tr.«end» h2, timeRangeJ]

end ClaimC3Helpers

section ClaimC3

/-- C3: for every instance state whose event times and visible range are
representable `Date` values, exporting and re-importing reproduces
`timelines`, `events` and `timeRange` exactly — as value trees, under every
date encoding (`iso`, `timestamp`, `formatted`) of the serializer — and in
particular the actual `exportDataString`/`importDataString` pipeline (both
on the default `iso` format) succeeds and restores the exported state,
whatever state the importing instance held before. -/
theorem claim_C3_export_import_roundtrip (st : TLState) (st0 : StateJ)
    (hev : ∀ e ∈ st.events, dateInRange e.startTime ∧ dateInRange e.endTime)
    (htr : dateInRange st.timeRange.start ∧ dateInRange st.timeRange.«end») :
    (∀ fmt, importData st0 (parseTree fmt (stringifyTree fmt (exportDataJ st))) =
      (true, ⟨st.timelines.map tlJ, st.events.map evJ, timeRangeJ st.timeRange⟩)) ∧
    importDataString st0 (.ok (exportDataString st)) =
      .ok (true, ⟨st.timelines.map tlJ, st.events.map evJ, timeRangeJ st.timeRange⟩) := by
  have hmain : ∀ fmt, importData st0 (parseTree fmt (stringifyTree fmt (exportDataJ st))) =
      (true, ⟨st.timelines.map tlJ, st.events.map evJ, timeRangeJ st.timeRange⟩) := by
    intro fmt
    have hexp : stringifyTree fmt (exportDataJ st) =
        .jobj [("timelines", .jarr ((st.timelines.map tlJ).map (stringifyEntry fmt))),
          ("events", .jarr ((st.events.map evJ).map (stringifyEntry fmt))),
          ("timeRange", stringifyEntry fmt (timeRangeJ st.timeRange))] := by
      simp [exportDataJ, stringifyTree, stringifyFields, stringifyEntry,
        stringifyElems_eq_map]
    rw [hexp]
    have htl : ((st.timelines.map tlJ).map (stringifyEntry fmt)).map (parseTree fmt) =
        st.timelines.map tlJ := by
      simp only [List.map_map]
      apply List.map_congr_left
      intro t _
      exact roundtrip_tlJ fmt t
    have hevs : ((st.events.map evJ).map (stringifyEntry fmt)).map (parseTree fmt) =
        st.events.map evJ := by
      simp only [List.map_map]
      apply List.map_congr_left
      intro e he
      exact roundtrip_evJ fmt e (hev e he).1 (hev e he).2
    have hparse : parseTree fmt
        (.jobj [("timelines", .jarr ((st.timelines.map tlJ).map (stringifyEntry fmt))),
          ("events", .jarr ((st.events.map evJ).map (stringifyEntry fmt))),
          ("timeRange", stringifyEntry fmt (timeRangeJ st.timeRange))]) =
        .jobj [("timelines", .jarr (st.timelines.map tlJ)),
          ("events", .jarr (st.events.map evJ)),
          ("timeRange", timeRangeJ st.timeRange)] := by
      rw [parseTree]
      rw [parseFields, parseFields, parseFields, parseFields]
      rw [parseTree, parseTree]
      rw [parseElems_eq_map, parseElems_eq_map, htl, hevs]
      rw [roundtrip_trJ fmt st.timeRange htr.1 htr.2]
      rw [reviveNode]
      rw [lookup_type_top]
    rw [hparse]
    have hkA : (st.timelines.map tlJ).all joinKeyOk = true := by
      rw [List.all_eq_true]
      intro v hv
      rw [List.mem_map] at hv
      obtain ⟨t, _, rfl⟩ := hv
      exact joinKeyOk_tlJ t
    have hkB : (st.events.map evJ).all joinKeyOk = true := by
      rw [List.all_eq_true]
      intro v hv
      rw [List.mem_map] at hv
      obtain ⟨e, _, rfl⟩ := hv
      exact joinKeyOk_evJ e
    have himp : importData st0
        (.jobj [("timelines", .jarr (st.timelines.map tlJ)),
          ("events", .jarr (st.events.map evJ)),
          ("timeRange", timeRangeJ st.timeRange)]) =
        ((st.timelines.map tlJ).all joinKeyOk && (st.events.map evJ).all joinKeyOk,
          ⟨st.timelines.map tlJ, st.events.map evJ, timeRangeJ st.timeRange⟩) := rfl
    rw [himp, hkA, hkB]
    rfl
  refine ⟨hmain, ?_⟩
  have h2 : importDataString st0 (.ok (exportDataString st)) =
      .ok (importData st0 (parseTree DateFormat.iso
        (stringifyTree DateFormat.iso (exportDataJ st)))) := rfl
  rw [h2, hmain DateFormat.iso]

/-- A concrete state for the C3 witness: one timeline, a point event and a
staged range event, a one-day visible range. -/
def c3St : TLState :=
  ⟨[⟨ID.num 1, "a", "#fff"⟩],
   [⟨ID.num 10, ID.num 1, "E1", "d", 0, 0, "#abc", EvType.point, none⟩,
    ⟨ID.num 11, ID.num 1, "E2", "", 3600000, 7200000, "#def", EvType.range,
      some ⟨ID.str "s1", 2⟩⟩],
   ⟨0, 86400000⟩⟩

/-- C3 witness: the round trip at a concrete state. -/
theorem claim_C3_witness :
    importDataString ⟨[], [], .jnull⟩ (.ok (exportDataString c3St)) =
      .ok (true, ⟨c3St.timelines.map tlJ, c3St.events.map evJ, timeRangeJ c3St.timeRange⟩) :=
  (claim_C3_export_import_roundtrip c3St ⟨[], [], .jnull⟩ (by decide) (by decide)).2

end ClaimC3
